import Mathlib

/-!
Verification development for the AutoRia scraper repository
(`autoria_scraper/scraper.py`, `autoria_scraper/database.py`,
`autoria_scraper/config.py`).

The Python source is shallowly embedded: pure parsing helpers become Lean
functions on strings; the stateful parts (the per-run processed-URL set, the
record store, the page loop, the semaphore-bounded batch of detail-page
tasks) become explicit state passing and, for the concurrency claims, a
small-step scheduler over atomic blocks separated by the coroutines'
suspension points.  External effects (HTTP responses, rendered detail pages,
extraction outcomes) are supplied as explicit environments.
-/

namespace AutoRia

/-- Data of one scraped car record except its `url` key, mirroring the
dictionary built at `scraper.py` lines 293-304. -/
structure RecordData where
  title : String
  price_usd : Nat
  odometer : Int
  username : String
  phone_number : Nat
  image_url : String
  images_count : Nat
  car_number : String
  car_vin : String
deriving DecidableEq, Repr

/-- One scraped car record, keyed by `url` (the dictionary returned by
`_extract_car_data`, persisted by `database.save_car`). -/
structure Record where
  url : String
  title : String
  price_usd : Nat
  odometer : Int
  username : String
  phone_number : Nat
  image_url : String
  images_count : Nat
  car_number : String
  car_vin : String
deriving DecidableEq, Repr

/-- Builds the record that `_extract_car_data` returns for `car_url`:
the `url` field is always the requested URL (line 294). -/
def mkRecord (url : String) (d : RecordData) : Record :=
  { url := url
    title := d.title
    price_usd := d.price_usd
    odometer := d.odometer
    username := d.username
    phone_number := d.phone_number
    image_url := d.image_url
    images_count := d.images_count
    car_number := d.car_number
    car_vin := d.car_vin }

/-- Value of an ASCII digit string read left to right, as Python's
`int(digits)` computes it on the digit-only strings produced by
`re.sub(r'[^\d]', '', text)`. -/
def natOfDigits (l : List Char) : Nat :=
  l.foldl (fun a c => 10 * a + (c.toNat - 48)) 0

/-- Embedding of `AutoRiaScraper._extract_price` (scraper.py lines 313-320):
drop every non-digit character; an empty remainder (including empty input)
gives 0, otherwise the digits are read as an integer. -/
def extractPrice (price_text : String) : Nat :=
  let digits := price_text.toList.filter Char.isDigit
  if digits.isEmpty then 0 else natOfDigits digits

/-- Embedding of `AutoRiaScraper._extract_phone_number` (scraper.py lines
343-350): same digit-stripping conversion as the price. -/
def extractPhoneNumber (phone_text : String) : Nat :=
  let digits := phone_text.toList.filter Char.isDigit
  if digits.isEmpty then 0 else natOfDigits digits

/-- Embedding of `AutoRiaScraper._extract_odometer` (scraper.py lines
322-341).  The regex `(\d+[.,]?\d*)` finds the leftmost digit, takes the
maximal digit run, then an optional single `.` or `,` followed by a further
digit run; `,` is replaced by `.`; the resulting decimal number times 1000
is truncated to an integer (`int(float(number) * 1000)`).  The decimal value
is modelled exactly (as the integer-and-fraction digit strings denote), so
the multiplication and truncation are exact; the result type is `Int`
because Python's `int(...)` is a general integer. -/
def extractOdometer (odometer_text : String) : Int :=
  if odometer_text = "" then 0
  else
    let cs := odometer_text.toList.dropWhile (fun c => !c.isDigit)
    if cs.isEmpty then 0
    else
      let d1 := cs.takeWhile Char.isDigit
      let rest := cs.dropWhile Char.isDigit
      let d2 :=
        match rest with
        | c :: rs => if c = '.' ∨ c = ',' then rs.takeWhile Char.isDigit else []
        | [] => []
      let intPart := natOfDigits d1
      let fracPart := natOfDigits d2
      Int.ofNat ((intPart * 10 ^ d2.length * 1000 + fracPart * 1000) / 10 ^ d2.length)

/-- Outcome of rendering one detail page, the environment one iteration of
the retry loop of `_extract_car_data` (scraper.py lines 194-311) observes.
`loads` is whether navigation plus the wait for the `auto-content` element
succeeds; each remaining field is the result of the corresponding element
lookup, `none` when the lookup raises (element absent) and `some` the
element's text (or attribute, or thumbnail texts / count) when it is found.
The HTML selectors themselves are abstracted to their lookup results. -/
structure DetailPage where
  loads : Bool
  title : Option String
  price : Option String
  odometer : Option String
  username : Option String
  phones : Option (List String)
  image : Option String
  imagesCnt : Option Nat
  plate : Option String
  vin : Option String

/-- Embedding of one iteration of the `for attempt in range(self.max_retries)`
body of `_extract_car_data` (scraper.py lines 195-311).  The `title` and
`price` lookups (lines 206, 210) sit directly in the attempt body: when they
raise, the whole attempt fails (`none`), exactly like a page-load failure;
every other field lookup is wrapped in its own try-except and falls back
to its documented default. -/
def attemptExtract (car_url : String) (p : DetailPage) : Option Record :=
  if !p.loads then none
  else
    match p.title with
    | none => none
    | some titleText =>
      match p.price with
      | none => none
      | some priceText =>
        let odometer : Int :=
          match p.odometer with
          | some t => extractOdometer t.trim
          | none => 0
        let username : String :=
          match p.username with
          | some t => t.trim
          | none => ""
        let phone_number : Nat :=
          match p.phones with
          | some texts =>
            let phoneNumbers := (texts.map String.trim).filter (fun s => s ≠ "")
            extractPhoneNumber (phoneNumbers.headD "")
          | none => 0
        let image_url : String := p.image.getD ""
        let images_count : Nat := p.imagesCnt.getD 0
        let car_number : String := (p.plate.map String.trim).getD ""
        let car_vin : String := (p.vin.map String.trim).getD ""
        some
          { url := car_url
            title := titleText.trim
            price_usd := extractPrice priceText.trim
            odometer := odometer
            username := username
            phone_number := phone_number
            image_url := image_url
            images_count := images_count
            car_number := car_number
            car_vin := car_vin }

/-- Whether an attempt of `_extract_car_data` returns a record: the page
loads and the unguarded `title` and `price` lookups both find their
element. -/
def attemptOk (p : DetailPage) : Bool :=
  p.loads && p.title.isSome && p.price.isSome

/-- Retry loop of `_extract_car_data`: attempt index `a` runs against page
state `pages a`; a successful attempt returns its record at once, a failed
attempt moves on to the next one, and once the `max_retries` attempts are
exhausted (or when `max_retries = 0`, so the loop body never runs and the
function falls off its end) the result is `none`.  The second component
counts the page-load attempts (navigations) performed. -/
def detailLoop (car_url : String) (pages : Nat → DetailPage) :
    Nat → Nat → Option Record × Nat
  | _, 0 => (none, 0)
  | a, k + 1 =>
    match attemptExtract car_url (pages a) with
    | some r => (some r, 1)
    | none =>
      let rec_res := detailLoop car_url pages (a + 1) k
      (rec_res.1, rec_res.2 + 1)

/-- Embedding of `AutoRiaScraper._extract_car_data` (scraper.py lines
190-311): run the retry loop from attempt 0 with `max_retries` iterations
allowed. -/
def extractCarData (car_url : String) (max_retries : Nat)
    (pages : Nat → DetailPage) : Option Record × Nat :=
  detailLoop car_url pages 0 max_retries

/-- Outcome of one `session.get` of a listing page in
`_extract_car_urls_and_next_page` (scraper.py lines 141-164): either the
request raises (network error, timeout), or a response arrives with an HTTP
status and a body; the body is abstracted to what the two CSS selectors plus
`urljoin` extract from it — the absolute car URLs in page order and the
optional absolute next-page URL. -/
inductive FetchResult where
  | netError
  | response (status : Nat) (carUrls : List String) (next : Option String)
deriving DecidableEq

/-- Whether attempt `a` of the listing fetch fails in the source's sense:
the request raises, or the response status differs from 200 (scraper.py
line 144 tests `response.status != 200`). -/
def failingFetch (responses : Nat → FetchResult) (a : Nat) : Bool :=
  match responses a with
  | .netError => true
  | .response status _ _ => status ≠ 200

/-- Retry loop of `_extract_car_urls_and_next_page` (scraper.py lines
141-170).  Attempt `a` performs one GET; on a non-200 status or an
exception the loop sleeps `request_delay * (attempt + 1)` seconds and
continues; a 200 response returns its extracted URLs at once; when the
`max_retries` attempts are exhausted the result is `([], none)`.  Output:
(result, sleep trace in seconds, number of GET attempts performed). -/
def listFetchLoop (responses : Nat → FetchResult) (delay : ℚ) :
    Nat → Nat → (List String × Option String) × List ℚ × Nat
  | _, 0 => (([], none), [], 0)
  | a, k + 1 =>
    match responses a with
    | .netError =>
      let rec_res := listFetchLoop responses delay (a + 1) k
      (rec_res.1, delay * ((a : ℚ) + 1) :: rec_res.2.1, rec_res.2.2 + 1)
    | .response status carUrls next =>
      if status = 200 then ((carUrls, next), [], 1)
      else
        let rec_res := listFetchLoop responses delay (a + 1) k
        (rec_res.1, delay * ((a : ℚ) + 1) :: rec_res.2.1, rec_res.2.2 + 1)

/-- Embedding of `AutoRiaScraper._extract_car_urls_and_next_page`
(scraper.py lines 133-170): run the fetch retry loop from attempt 0 with
`max_retries` iterations allowed. -/
def extractCarUrlsAndNextPage (responses : Nat → FetchResult)
    (max_retries : Nat) (delay : ℚ) :
    (List String × Option String) × List ℚ × Nat :=
  listFetchLoop responses delay 0 max_retries

/-- Embedding of `Database.save_car` (database.py lines 76-112): the SQL
`INSERT ... ON CONFLICT (url) DO NOTHING RETURNING id` inserts the record
exactly when no stored row has its `url`, and the function returns whether a
row was created (`result is not None`). -/
def saveCar (store : List Record) (r : Record) : List Record × Bool :=
  if store.any (fun s => s.url = r.url) then (store, false)
  else (store ++ [r], true)

/-- Abstracted outcome of `await self._extract_car_data(car_url)` for one
task: the extraction returns a record with data `d`, returns `None` after
its retries, or raises.  `suspends` records whether the coroutine hits an
await point (a retry's `asyncio.sleep`) before completing — the fact the
interleaved model needs, since a coroutine that never suspends runs
atomically under asyncio's single-threaded event loop. -/
inductive ExtBehavior where
  | ok (suspends : Bool) (d : RecordData)
  | fail (suspends : Bool)
  | raise (suspends : Bool)

/-- Result of one `_process_car_page_with_semaphore` task as
`asyncio.gather(..., return_exceptions=True)` observes it: a returned
boolean, or a raised exception captured as a value. -/
inductive TaskResult where
  | ret (b : Bool)
  | error
deriving DecidableEq, Repr

/-- Observable side effects of one task, in program order: adding the URL to
`self.processed_urls` (scraper.py line 181) and calling `db.save_car`
(line 182). -/
inductive Ev where
  | mark
  | save
deriving DecidableEq, Repr

/-- Output of one serialized `_process_car_page_with_semaphore` call. -/
structure StepOut where
  processed : List String
  store : List Record
  result : TaskResult
  events : List Ev
deriving DecidableEq, Repr

/-- Embedding of the body of `_process_car_page_with_semaphore` (scraper.py
lines 172-188) run to completion without interleaving: skip a URL already in
`processed_urls` (line 176); otherwise on extraction success add the URL to
the set, then save (lines 179-183); an extraction returning `None` changes
nothing and returns `False` (line 185); an exception is logged and re-raised
(lines 186-188), leaving the state untouched. -/
def processCarPage (processed : List String) (store : List Record)
    (url : String) (beh : ExtBehavior) : StepOut :=
  if url ∈ processed then ⟨processed, store, .ret false, []⟩
  else
    match beh with
    | .ok _ d =>
      let saved := saveCar store (mkRecord url d)
      ⟨url :: processed, saved.1, .ret saved.2, [.mark, .save]⟩
    | .fail _ => ⟨processed, store, .ret false, []⟩
    | .raise _ => ⟨processed, store, .error, []⟩

/-- Output of a whole page batch: final state plus one result per task. -/
structure BatchOut where
  processed : List String
  store : List Record
  results : List TaskResult
deriving DecidableEq, Repr

/-- Serialized semantics of `asyncio.gather(*tasks, return_exceptions=True)`
over the page's tasks (scraper.py lines 110-111): every task runs, each
task's exception is captured as its own `.error` result instead of
propagating, and results are collected positionally. -/
def runBatchSeq (processed : List String) (store : List Record) :
    List (String × ExtBehavior) → BatchOut
  | [] => ⟨processed, store, []⟩
  | (url, beh) :: rest =>
    let o := processCarPage processed store url beh
    let r := runBatchSeq o.processed o.store rest
    ⟨r.processed, r.store, o.result :: r.results⟩

/-- Embedding of the per-page batch of `process_listing_pages` (scraper.py
lines 102-120): tasks are created only for URLs not already in
`processed_urls` (line 107), then gathered. -/
def processPageBatch (processed : List String) (store : List Record)
    (carUrls : List String) (beh : String → ExtBehavior) : BatchOut :=
  let todo := carUrls.filter (fun u => u ∉ processed)
  runBatchSeq processed store (todo.map (fun u => (u, beh u)))

/-- Count of successful saves, as at scraper.py line 114: results that are a
returned `True`. -/
def successCount (rs : List TaskResult) : Nat :=
  rs.countP (fun r => r = .ret true)

/-- Count of captured exceptions, as at scraper.py line 115. -/
def errorCount (rs : List TaskResult) : Nat :=
  rs.countP (fun r => r = .error)

/-- Output of a crawl run: the listing pages fetched in order, and the final
processed-URL set and store. -/
structure CrawlOut where
  visited : List String
  processed : List String
  store : List Record
deriving Repr

/-- Embedding of the page loop of `process_listing_pages` (scraper.py lines
85-131).  `listing` gives, per listing-page URL, the `(car_urls,
next_page_url)` result of `_extract_car_urls_and_next_page`; `beh` gives
each car URL's extraction behaviour.  The loop stops when the car-URL list
is empty (line 96-98) or there is no next page (line 123-125); otherwise it
moves to the returned next-page URL.  Fuel bounds the recursion; a run that
stops before exhausting its fuel stopped at one of the two breaks. -/
def crawlRun (listing : String → List String × Option String)
    (beh : String → ExtBehavior) :
    Nat → String → List String → List Record → CrawlOut
  | 0, _, processed, store => ⟨[], processed, store⟩
  | fuel + 1, url, processed, store =>
    let page := listing url
    if page.1.isEmpty then ⟨[url], processed, store⟩
    else
      let b := processPageBatch processed store page.1 beh
      match page.2 with
      | none => ⟨[url], b.processed, b.store⟩
      | some nxt =>
        let t := crawlRun listing beh fuel nxt b.processed b.store
        ⟨url :: t.visited, t.processed, t.store⟩

/-- Pagination-order chain: consecutive visited pages are linked by the
listing environment — each non-final visited page has a non-empty car list
and names the next visited page as its next-page URL. -/
def chainOk (listing : String → List String × Option String) :
    List String → Bool
  | [] => true
  | [_] => true
  | u :: u' :: rest =>
    !(listing u).1.isEmpty && ((listing u).2 = some u' : Bool)
      && chainOk listing (u' :: rest)

/-- Phase of one `_process_car_page_with_semaphore` task in the interleaved
model.  The atomic blocks are delimited by the coroutine's suspension
points: a task not yet scheduled is `pending`; once the semaphore admits it,
the duplicate check and the start of extraction run in one block (asyncio
runs a coroutine atomically between awaits); `extracting` is a task
suspended inside `_extract_car_data`; `saving r` holds after the URL is
marked, while `await db.save_car(r)` is outstanding; `done` carries the
task's result. -/
inductive Phase where
  | pending
  | extracting
  | saving (r : Record)
  | done (res : TaskResult)
deriving DecidableEq, Repr

/-- Static description of one task of a page batch: its car URL and its
extraction behaviour. -/
structure TaskSpec where
  url : String
  beh : ExtBehavior

/-- Shared state of the interleaved batch: each task's phase, plus the two
objects the tasks share — `self.processed_urls` and the database. -/
structure SchedState where
  phases : List Phase
  processed : List String
  store : List Record

/-- Whether a phase holds the semaphore between scheduler steps: the whole
task body runs under `async with semaphore` (scraper.py line 174), so a task
suspended mid-extraction or mid-save holds a permit. -/
def holdsPermit : Phase → Bool
  | .extracting => true
  | .saving _ => true
  | _ => false

/-- Number of tasks currently holding a semaphore permit, i.e. detail-page
units of work in flight. -/
def inFlight (st : SchedState) : Nat :=
  st.phases.countP holdsPermit

/-- One scheduler step on task `i`: the embedding of the next atomic block
of `_process_car_page_with_semaphore` (scraper.py lines 172-188) for that
task.  From `pending`, the semaphore admits the task only while fewer than
`n` permits are held; the admitted block performs the membership check on
`processed_urls` and, unless the extraction suspends, the extraction itself,
marking the URL on success.  From `extracting`, the resumed block finishes
the extraction.  From `saving`, the block performs the database insert and
returns.  A blocked, finished or out-of-range task leaves the state
unchanged. -/
def stepTask (n : Nat) (specs : List TaskSpec) (st : SchedState) (i : Nat) :
    SchedState :=
  match specs[i]?, st.phases[i]? with
  | some sp, some ph =>
    match ph with
    | .pending =>
      if inFlight st < n then
        if sp.url ∈ st.processed then
          { st with phases := st.phases.set i (.done (.ret false)) }
        else
          match sp.beh with
          | .ok true _ => { st with phases := st.phases.set i .extracting }
          | .ok false d =>
            { st with
              phases := st.phases.set i (.saving (mkRecord sp.url d))
              processed := sp.url :: st.processed }
          | .fail true => { st with phases := st.phases.set i .extracting }
          | .fail false =>
            { st with phases := st.phases.set i (.done (.ret false)) }
          | .raise true => { st with phases := st.phases.set i .extracting }
          | .raise false =>
            { st with phases := st.phases.set i (.done .error) }
      else st
    | .extracting =>
      match sp.beh with
      | .ok _ d =>
        { st with
          phases := st.phases.set i (.saving (mkRecord sp.url d))
          processed :=
            if sp.url ∈ st.processed then st.processed
            else sp.url :: st.processed }
      | .fail _ => { st with phases := st.phases.set i (.done (.ret false)) }
      | .raise _ => { st with phases := st.phases.set i (.done .error) }
    | .saving r =>
      let saved := saveCar st.store r
      { st with
        phases := st.phases.set i (.done (.ret saved.2))
        store := saved.1 }
    | .done _ => st
  | _, _ => st

/-- Run a whole schedule: a list of task indices, each naming the task the
event loop resumes next. -/
def runSched (n : Nat) (specs : List TaskSpec) (st : SchedState)
    (sched : List Nat) : SchedState :=
  sched.foldl (fun s i => stepTask n specs s i) st

/-- Initial state of a page batch: every task pending, with the given
run-global processed set and store. -/
def initState (specs : List TaskSpec) (processed : List String)
    (store : List Record) : SchedState :=
  ⟨specs.map (fun _ => Phase.pending), processed, store⟩

/-! Concrete fixtures used by the witnesses and counterexamples below. -/

/-- Sample record data for one car. -/
def sampleData : RecordData :=
  { title := "BMW X5"
    price_usd := 25000
    odometer := 95000
    username := "Seller"
    phone_number := 380671234567
    image_url := "img1"
    images_count := 7
    car_number := "AA1234BB"
    car_vin := "WBA12345" }

/-- Sample record. -/
def sampleRecord : Record := mkRecord "https://auto.ria.com/car/1" sampleData

/-- A different record carrying the same `url` as `sampleRecord`. -/
def sampleRecordB : Record := { sampleRecord with title := "relisted" }

/-- A detail page that loads fine and renders every element except the
title. -/
def pageNoTitle : DetailPage :=
  { loads := true
    title := none
    price := some "25 000 $"
    odometer := some "95 тис. км"
    username := some "Seller"
    phones := some ["+38 (067) 123-45-67"]
    image := some "img1"
    imagesCnt := some 7
    plate := some "AA1234BB"
    vin := some "WBA12345" }

/-- A detail page with title and price present and every guarded field
absent. -/
def pageDefaults : DetailPage :=
  { loads := true
    title := some " BMW X5 "
    price := some "25 000 $"
    odometer := none
    username := none
    phones := none
    image := none
    imagesCnt := none
    plate := none
    vin := none }

/-- Two concurrent tasks for the same car URL: the first suspends during
extraction (a retry sleep), the second completes its extraction without
suspending. -/
def cexSpecs : List TaskSpec :=
  [⟨"u", .ok true sampleData⟩, ⟨"u", .ok false sampleData⟩]

/-- A two-page listing environment: `p1` links to `p2`, `p2` is the last
page. -/
def listingTwoPages : String → List String × Option String :=
  fun u =>
    if u = "p1" then (["c1"], some "p2")
    else if u = "p2" then (["c2"], none)
    else ([], none)

/-- Extraction environment where every car URL succeeds immediately. -/
def behAll : String → ExtBehavior := fun _ => .ok false sampleData

/-- Listing-fetch environment whose first attempt hits a network error and
whose second attempt returns a 200 response. -/
def respOneRetry : Nat → FetchResult :=
  fun a => if a = 0 then .netError else .response 200 ["c1"] none

/-!  Theorems. -/

/-- C8: the odometer parser maps the text "95 тис. км" to 95000; it returns
0 for empty or unparsable text; and, the located decimal number being
non-negative by construction, its result is always a non-negative
integer. -/
theorem c8_extract_odometer :
    extractOdometer "95 тис. км" = 95000 ∧
    extractOdometer "" = 0 ∧
    extractOdometer "тис. км" = 0 ∧
    ∀ s : String, 0 ≤ extractOdometer s := by
  refine ⟨by decide, by decide, by decide, fun s => ?_⟩
  unfold extractOdometer
  split
  · exact le_refl 0
  · dsimp only
    split
    · exact le_refl 0
    · exact Int.ofNat_nonneg _

/-- C7: `save_car` with a record whose `url` is absent from the store
inserts it and returns `true`; a second call with any record carrying the
same `url` returns `false` and leaves the store unchanged; the store then
holds exactly one row for that `url`. -/
theorem c7_save_car_upsert (store : List Record) (r r' : Record)
    (hnew : ∀ s ∈ store, s.url ≠ r.url) (hsame : r'.url = r.url) :
    saveCar store r = (store ++ [r], true) ∧
    saveCar (store ++ [r]) r' = (store ++ [r], false) ∧
    ((store ++ [r]).filter (fun s => s.url = r.url)).length = 1 := by
  have h1 : store.any (fun s => s.url = r.url) = false := by
    simp only [List.any_eq_false, decide_eq_true_eq]
    exact hnew
  have h2 : (store ++ [r]).any (fun s => s.url = r'.url) = true := by
    simp only [List.any_eq_true, decide_eq_true_eq]
    exact ⟨r, by simp, hsame.symm⟩
  refine ⟨by simp [saveCar, h1], by simp [saveCar, h2], ?_⟩
  have h3 : store.filter (fun s => s.url = r.url) = [] := by
    simp only [List.filter_eq_nil_iff, decide_eq_true_eq]
    exact hnew
  simp [List.filter_append, h3]

/-- C7 witness: concrete double insertion of the same `url`. -/
theorem c7_save_car_upsert_witness :
    saveCar [] sampleRecord = ([sampleRecord], true) ∧
    saveCar [sampleRecord] sampleRecordB = ([sampleRecord], false) ∧
    (([sampleRecord]).filter (fun s => s.url = sampleRecord.url)).length = 1 :=
  c7_save_car_upsert [] sampleRecord sampleRecordB (by simp) rfl

/-- C9: a URL is added to the in-run processed set exactly when its
extraction returns a record, and the `mark` event precedes the `save`
event; a failed or raising extraction leaves the set (and everything else)
unchanged, so the URL can be re-attempted later in the run; a successful
extraction marks the URL no matter what the subsequent save returns; and a
URL already in the set is skipped with no effect. -/
theorem c9_mark_on_success (processed : List String) (store : List Record)
    (url : String) (susp : Bool) (d : RecordData) (h : url ∉ processed) :
    (processCarPage processed store url (.ok susp d)).processed
        = url :: processed ∧
    (processCarPage processed store url (.ok susp d)).events
        = [.mark, .save] ∧
    processCarPage processed store url (.fail susp)
        = ⟨processed, store, .ret false, []⟩ ∧
    processCarPage processed store url (.raise susp)
        = ⟨processed, store, .error, []⟩ ∧
    ∀ (p2 : List String) (s2 : List Record) (u2 : String)
      (b2 : ExtBehavior), u2 ∈ p2 →
      processCarPage p2 s2 u2 b2 = ⟨p2, s2, .ret false, []⟩ := by
  refine ⟨by simp [processCarPage, h], by simp [processCarPage, h],
    by simp [processCarPage, h], by simp [processCarPage, h],
    fun p2 s2 u2 b2 h2 => by simp [processCarPage, h2]⟩

/-- C9 witness: concrete marking of a fresh URL. -/
theorem c9_mark_on_success_witness :
    (processCarPage [] [] "u" (.ok false sampleData)).processed = ["u"] ∧
    (processCarPage [] [] "u" (.ok false sampleData)).events
        = [.mark, .save] ∧
    processCarPage [] [] "u" (.fail false) = ⟨[], [], .ret false, []⟩ ∧
    processCarPage [] [] "u" (.raise false) = ⟨[], [], .error, []⟩ ∧
    ∀ (p2 : List String) (s2 : List Record) (u2 : String)
      (b2 : ExtBehavior), u2 ∈ p2 →
      processCarPage p2 s2 u2 b2 = ⟨p2, s2, .ret false, []⟩ :=
  c9_mark_on_success [] [] "u" false sampleData (by simp)

/-- C10: with `max_retries = 0` the listing fetch returns an empty URL list
and no next page after zero GET attempts and zero sleeps; the detail
extraction returns `None` after zero page loads; and a crawl run under that
configuration visits only its start page and persists nothing. -/
theorem c10_zero_max_retries :
    (∀ (responses : Nat → FetchResult) (d : ℚ),
      extractCarUrlsAndNextPage responses 0 d = (([], none), [], 0)) ∧
    (∀ (url : String) (pages : Nat → DetailPage),
      extractCarData url 0 pages = (none, 0)) ∧
    (∀ (responses : String → Nat → FetchResult) (d : ℚ)
      (beh : String → ExtBehavior) (fuel : Nat) (url : String)
      (processed : List String) (store : List Record),
      crawlRun (fun u => (extractCarUrlsAndNextPage (responses u) 0 d).1)
          beh (fuel + 1) url processed store
        = ⟨[url], processed, store⟩) :=
  ⟨fun _ _ => rfl, fun _ _ => rfl, fun _ _ _ _ _ _ _ => rfl⟩

/-- Processing a raising task changes neither the processed set nor the
store; its only trace is its own result (`.error`, or a skip if the URL was
already claimed). -/
theorem processCarPage_raise (p : List String) (s : List Record)
    (u : String) (susp : Bool) :
    processCarPage p s u (.raise susp)
      = ⟨p, s, if u ∈ p then .ret false else .error, []⟩ := by
  by_cases h : u ∈ p <;> simp [processCarPage, h]

/-- C4: a task that raises is isolated — in a batch `xs ++ [raising task] ++
ys`, the tasks of `xs` and `ys` run exactly as they would without it, every
one of them producing its own result and (on success) its own insertion,
while the raising task surfaces only as one `.error` entry in the collected
results (the embedding of `asyncio.gather(..., return_exceptions=True)` is
total: no exception reaches the page loop). -/
theorem c4_error_isolation (xs ys : List (String × ExtBehavior))
    (u : String) (susp : Bool) (p : List String) (s : List Record) :
    runBatchSeq p s (xs ++ (u, .raise susp) :: ys) =
      { processed :=
          (runBatchSeq (runBatchSeq p s xs).processed
            (runBatchSeq p s xs).store ys).processed
        store :=
          (runBatchSeq (runBatchSeq p s xs).processed
            (runBatchSeq p s xs).store ys).store
        results :=
          (runBatchSeq p s xs).results ++
            (if u ∈ (runBatchSeq p s xs).processed then TaskResult.ret false
              else .error) ::
            (runBatchSeq (runBatchSeq p s xs).processed
              (runBatchSeq p s xs).store ys).results } := by
  induction xs generalizing p s with
  | nil =>
    simp only [List.nil_append, runBatchSeq, processCarPage_raise]
  | cons hd tl ih =>
    obtain ⟨hu, hb⟩ := hd
    simp only [List.cons_append, runBatchSeq, List.append_eq]
    rw [ih]

/-- An attempt of `_extract_car_data` fails exactly when the page does not
load or the unguarded `title` or `price` lookup raises. -/
theorem attemptExtract_none_iff (url : String) (p : DetailPage) :
    attemptExtract url p = none ↔ attemptOk p = false := by
  rcases p with ⟨loads, title, price, odo, user, phones, img, cnt, plate, vin⟩
  cases loads <;> cases title <;> cases price <;>
    simp [attemptExtract, attemptOk]

/-- Retry-loop characterization: the loop yields `none` exactly when every
one of its `k` attempts fails. -/
theorem detailLoop_none_iff (url : String) (pages : Nat → DetailPage) :
    ∀ (k a : Nat), (detailLoop url pages a k).1 = none ↔
      ∀ i < k, attemptOk (pages (a + i)) = false := by
  intro k
  induction k with
  | zero => intro a; simp [detailLoop]
  | succ k ih =>
    intro a
    cases h : attemptExtract url (pages a) with
    | some r =>
      have hok : attemptOk (pages a) = true := by
        cases hh : attemptOk (pages a)
        · exact absurd ((attemptExtract_none_iff url (pages a)).mpr hh)
            (by simp [h])
        · rfl
      refine iff_of_false (by simp [detailLoop, h]) ?_
      intro hall
      have h0 := hall 0 (Nat.succ_pos k)
      rw [Nat.add_zero] at h0
      rw [hok] at h0
      exact absurd h0 (by simp)
    | none =>
      have hok : attemptOk (pages a) = false :=
        (attemptExtract_none_iff url (pages a)).mp h
      have hstep : (detailLoop url pages a (k + 1)).1
          = (detailLoop url pages (a + 1) k).1 := by
        simp [detailLoop, h]
      rw [hstep, ih (a + 1)]
      constructor
      · intro hall i hi
        match i, hi with
        | 0, _ => rw [Nat.add_zero]; exact hok
        | j + 1, hj =>
          have : a + (j + 1) = a + 1 + j := by omega
          rw [this]
          exact hall j (Nat.lt_of_succ_lt_succ hj)
      · intro hall i hi
        have : a + 1 + i = a + (i + 1) := by omega
        rw [this]
        exact hall (i + 1) (Nat.succ_lt_succ hi)

/-- C1 (amended): field extraction is fault-tolerant for the guarded fields
— whenever the page loads and the title and price elements are found, a
record is returned whose fields default on each absent guarded element
(odometer 0, seller name empty, phone 0, image empty, image count 0, plate
and VIN empty); and the overall result is `None` exactly when every retry
attempt has a page-load failure or a title- or price-lookup failure. -/
theorem c1_field_fault_tolerance :
    (∀ (url : String) (p : DetailPage), attemptOk p = true →
      ∃ r, attemptExtract url p = some r ∧ r.url = url ∧
        (p.odometer = none → r.odometer = 0) ∧
        (p.username = none → r.username = "") ∧
        (p.phones = none → r.phone_number = 0) ∧
        (p.image = none → r.image_url = "") ∧
        (p.imagesCnt = none → r.images_count = 0) ∧
        (p.plate = none → r.car_number = "") ∧
        (p.vin = none → r.car_vin = "")) ∧
    (∀ (url : String) (k : Nat) (pages : Nat → DetailPage),
      (extractCarData url k pages).1 = none ↔
        ∀ a < k, attemptOk (pages a) = false) := by
  constructor
  · intro url p hok
    simp only [attemptOk, Bool.and_eq_true] at hok
    obtain ⟨⟨hl, hts⟩, hps⟩ := hok
    obtain ⟨t, ht⟩ := Option.isSome_iff_exists.mp hts
    obtain ⟨pr, hpr⟩ := Option.isSome_iff_exists.mp hps
    simp only [attemptExtract, hl, ht, hpr, Bool.not_true, Bool.false_eq_true,
      if_false]
    exact ⟨_, rfl, rfl, fun h => by simp [h], fun h => by simp [h],
      fun h => by simp [h, extractPhoneNumber, natOfDigits],
      fun h => by simp [h], fun h => by simp [h], fun h => by simp [h],
      fun h => by simp [h]⟩
  · intro url k pages
    have := detailLoop_none_iff url pages k 0
    simpa [extractCarData] using this

/-- C1 counterexample: a detail page that always loads but lacks the title
element makes `_extract_car_data` return `None` after its retries — an
individual field lookup's failure does abort the whole extraction,
contradicting the claim that only a persistent page-load failure does. -/
theorem c1_counterexample :
    pageNoTitle.loads = true ∧
    extractCarData "u" 3 (fun _ => pageNoTitle) = (none, 3) :=
  ⟨rfl, rfl⟩

/-- C1 witness: a concrete page with title and price present and all
guarded elements absent yields a record of defaults; the concrete
no-title page is `None` for every attempt. -/
theorem c1_field_fault_tolerance_witness :
    (∃ r, attemptExtract "u" pageDefaults = some r ∧ r.url = "u" ∧
      (pageDefaults.odometer = none → r.odometer = 0) ∧
      (pageDefaults.username = none → r.username = "") ∧
      (pageDefaults.phones = none → r.phone_number = 0) ∧
      (pageDefaults.image = none → r.image_url = "") ∧
      (pageDefaults.imagesCnt = none → r.images_count = 0) ∧
      (pageDefaults.plate = none → r.car_number = "") ∧
      (pageDefaults.vin = none → r.car_vin = "")) ∧
    ((extractCarData "u" 2 (fun _ => pageNoTitle)).1 = none ↔
      ∀ a < 2, attemptOk ((fun _ => pageNoTitle) a) = false) :=
  ⟨c1_field_fault_tolerance.1 "u" pageDefaults rfl,
   c1_field_fault_tolerance.2 "u" 2 (fun _ => pageNoTitle)⟩

/-- A crawl with at least one unit of fuel starts its visit trace at the
current page. -/
theorem crawlRun_visited_head (listing : String → List String × Option String)
    (beh : String → ExtBehavior) (fuel : Nat) (url : String)
    (processed : List String) (store : List Record) :
    (crawlRun listing beh (fuel + 1) url processed store).visited.head?
      = some url := by
  simp only [crawlRun]
  split
  · rfl
  · split <;> rfl

/-- The visit trace of a crawl always follows the pagination chain. -/
theorem chainOk_crawlRun (listing : String → List String × Option String)
    (beh : String → ExtBehavior) :
    ∀ (fuel : Nat) (url : String) (processed : List String)
      (store : List Record),
      chainOk listing (crawlRun listing beh fuel url processed store).visited
        = true := by
  intro fuel
  induction fuel with
  | zero => intro url p s; rfl
  | succ fuel ih =>
    intro url p s
    simp only [crawlRun]
    split
    · rfl
    · rename_i hne
      split
      · rfl
      · rename_i nxt hnxt
        cases fuel with
        | zero => rfl
        | succ f =>
          have hempty : (listing url).1.isEmpty = false := by
            cases hx : (listing url).1.isEmpty
            · rfl
            · exact absurd hx hne
          have hhead := crawlRun_visited_head listing beh f nxt
            (processPageBatch p s (listing url).1 beh).processed
            (processPageBatch p s (listing url).1 beh).store
          have hch := ih nxt
            (processPageBatch p s (listing url).1 beh).processed
            (processPageBatch p s (listing url).1 beh).store
          cases ht : (crawlRun listing beh (f + 1) nxt
              (processPageBatch p s (listing url).1 beh).processed
              (processPageBatch p s (listing url).1 beh).store).visited with
          | nil => rw [ht] at hhead; exact absurd hhead (by simp)
          | cons a rest =>
            rw [ht] at hhead hch
            have ha : a = nxt := by simpa using hhead
            show chainOk listing (url :: a :: rest) = true
            rw [ha]
            rw [ha] at hch
            simp [chainOk, hempty, hnxt, hch]

/-- A crawl that stops before exhausting its fuel stopped at a page with an
empty car-URL list or without a next-page link. -/
theorem crawlRun_terminal (listing : String → List String × Option String)
    (beh : String → ExtBehavior) :
    ∀ (fuel : Nat) (url : String) (p : List String) (s : List Record)
      (u' : String),
      (crawlRun listing beh fuel url p s).visited.length < fuel →
      (crawlRun listing beh fuel url p s).visited.getLast? = some u' →
      (listing u').1.isEmpty = true ∨ (listing u').2 = none := by
  intro fuel
  induction fuel with
  | zero => intro url p s u' h; exact absurd h (by simp)
  | succ f ih =>
    intro url p s u' hlen hlast
    cases hemp : (listing url).1.isEmpty with
    | true =>
      have heq : crawlRun listing beh (f + 1) url p s = ⟨[url], p, s⟩ := by
        simp [crawlRun, hemp]
      rw [heq] at hlast
      have : url = u' := by simpa using hlast
      subst this
      exact Or.inl hemp
    | false =>
      cases hnx : (listing url).2 with
      | none =>
        have heq : crawlRun listing beh (f + 1) url p s =
            ⟨[url], (processPageBatch p s (listing url).1 beh).processed,
              (processPageBatch p s (listing url).1 beh).store⟩ := by
          simp [crawlRun, hemp, hnx]
        rw [heq] at hlast
        have : url = u' := by simpa using hlast
        subst this
        exact Or.inr hnx
      | some nxt =>
        have heq : crawlRun listing beh (f + 1) url p s =
            ⟨url :: (crawlRun listing beh f nxt
                (processPageBatch p s (listing url).1 beh).processed
                (processPageBatch p s (listing url).1 beh).store).visited,
              (crawlRun listing beh f nxt
                (processPageBatch p s (listing url).1 beh).processed
                (processPageBatch p s (listing url).1 beh).store).processed,
              (crawlRun listing beh f nxt
                (processPageBatch p s (listing url).1 beh).processed
                (processPageBatch p s (listing url).1 beh).store).store⟩ := by
          simp [crawlRun, hemp, hnx]
        rw [heq] at hlen hlast
        cases hv : (crawlRun listing beh f nxt
            (processPageBatch p s (listing url).1 beh).processed
            (processPageBatch p s (listing url).1 beh).store).visited with
        | nil =>
          rw [hv] at hlen
          simp only [List.length_cons, List.length_nil] at hlen
          obtain ⟨f2, rfl⟩ : ∃ f2, f = f2 + 1 := ⟨f - 1, by omega⟩
          have hh := crawlRun_visited_head listing beh f2 nxt
            (processPageBatch p s (listing url).1 beh).processed
            (processPageBatch p s (listing url).1 beh).store
          rw [hv] at hh
          exact absurd hh (by simp)
        | cons a rest =>
          rw [hv] at hlen hlast
          rw [List.getLast?_cons_cons] at hlast
          refine ih nxt (processPageBatch p s (listing url).1 beh).processed
            (processPageBatch p s (listing url).1 beh).store u' ?_ ?_
          · rw [hv]
            simp only [List.length_cons] at hlen ⊢
            omega
          · rw [hv]
            exact hlast

/-- C5: whenever the listing fetch yields an empty item list or no
next-page URL the crawl loop stops there — a run that ends before its fuel
bound ends on such a page, with no later listing-page fetch — and
otherwise it proceeds exactly to the returned next-page URL, so the visit
trace follows the pagination chain in order. -/
theorem c5_crawl_termination (listing : String → List String × Option String)
    (beh : String → ExtBehavior) (fuel : Nat) (url : String)
    (processed : List String) (store : List Record) :
    chainOk listing (crawlRun listing beh fuel url processed store).visited
      = true ∧
    (∀ u', (crawlRun listing beh fuel url processed store).visited.length < fuel →
      (crawlRun listing beh fuel url processed store).visited.getLast? = some u' →
      (listing u').1.isEmpty = true ∨ (listing u').2 = none) :=
  ⟨chainOk_crawlRun listing beh fuel url processed store,
   fun u' hlen hlast =>
     crawlRun_terminal listing beh fuel url processed store u' hlen hlast⟩

/-- C5 witness: a concrete two-page crawl follows the chain `p1 → p2` and
ends at `p2`, which has no next page. -/
theorem c5_crawl_termination_witness :
    chainOk listingTwoPages
      (crawlRun listingTwoPages behAll 5 "p1" [] []).visited = true ∧
    ((listingTwoPages "p2").1.isEmpty = true ∨
      (listingTwoPages "p2").2 = none) :=
  ⟨(c5_crawl_termination listingTwoPages behAll 5 "p1" [] []).1,
   (c5_crawl_termination listingTwoPages behAll 5 "p1" [] []).2 "p2"
     (by decide) (by decide)⟩

/-- The listing fetch performs at most `k` GET attempts when `k` retries are
allowed. -/
theorem listFetchLoop_attempts_le (responses : Nat → FetchResult) (d : ℚ) :
    ∀ (k a : Nat), (listFetchLoop responses d a k).2.2 ≤ k := by
  intro k
  induction k with
  | zero => intro a; simp [listFetchLoop]
  | succ k ih =>
    intro a
    cases hre : responses a with
    | netError =>
      simp only [listFetchLoop, hre]
      exact Nat.succ_le_succ (ih (a + 1))
    | response st urls next =>
      by_cases hst : st = 200
      · simp [listFetchLoop, hre, hst]
      · simp only [listFetchLoop, hre, if_neg hst]
        exact Nat.succ_le_succ (ih (a + 1))

/-- When every allowed attempt fails, the listing fetch returns no URLs and
no next page, sleeps `d * attemptNumber` after each failed attempt, and
uses all `k` attempts. -/
theorem listFetchLoop_fail_all (responses : Nat → FetchResult) (d : ℚ) :
    ∀ (k a : Nat), (∀ i, i < k → failingFetch responses (a + i) = true) →
      listFetchLoop responses d a k =
        (([], none),
          (List.range k).map (fun i : Nat => d * ((a + i + 1 : Nat) : ℚ)),
          k) := by
  intro k
  induction k with
  | zero => intro a _; simp [listFetchLoop]
  | succ k ih =>
    intro a hall
    have h0 := hall 0 (Nat.succ_pos k)
    rw [Nat.add_zero] at h0
    have hrec := ih (a + 1) (fun i hi => by
      have hx := hall (i + 1) (Nat.succ_lt_succ hi)
      rwa [show a + (i + 1) = a + 1 + i by omega] at hx)
    have hmap : (List.range (k + 1)).map
          (fun i : Nat => d * ((a + i + 1 : Nat) : ℚ))
        = d * ((a : ℚ) + 1) ::
          (List.range k).map
            (fun i : Nat => d * ((a + 1 + i + 1 : Nat) : ℚ)) := by
      rw [List.range_succ_eq_map, List.map_cons, List.map_map]
      congr 1
      · push_cast
        ring
      · refine List.map_congr_left fun i _ => ?_
        simp only [Function.comp_apply, Nat.succ_eq_add_one]
        push_cast
        ring
    cases hre : responses a with
    | netError =>
      simp only [listFetchLoop, hre]
      rw [hrec, hmap]
    | response st urls next =>
      have hst : st ≠ 200 := by
        rw [failingFetch, hre] at h0
        simpa using h0
      simp only [listFetchLoop, hre, if_neg hst]
      rw [hrec, hmap]

/-- When the first `j` attempts fail and attempt `j` receives a 200
response, the listing fetch returns that response's extraction, has slept
`d * attemptNumber` after each of the `j` failures, and used `j + 1`
attempts — no retry follows an accepted response. -/
theorem listFetchLoop_first_success (responses : Nat → FetchResult) (d : ℚ) :
    ∀ (j k a : Nat) (urls : List String) (next : Option String),
      j < k → (∀ i, i < j → failingFetch responses (a + i) = true) →
      responses (a + j) = .response 200 urls next →
      listFetchLoop responses d a k =
        ((urls, next),
          (List.range j).map (fun i : Nat => d * ((a + i + 1 : Nat) : ℚ)),
          j + 1) := by
  intro j
  induction j with
  | zero =>
    intro k a urls next hk _ h200
    obtain ⟨k2, rfl⟩ : ∃ k2, k = k2 + 1 := ⟨k - 1, by omega⟩
    rw [Nat.add_zero] at h200
    simp [listFetchLoop, h200]
  | succ j ih =>
    intro k a urls next hk hfail h200
    obtain ⟨k2, rfl⟩ : ∃ k2, k = k2 + 1 := ⟨k - 1, by omega⟩
    have h0 := hfail 0 (Nat.succ_pos j)
    rw [Nat.add_zero] at h0
    have hrec := ih k2 (a + 1) urls next (by omega)
      (fun i hi => by
        have hx := hfail (i + 1) (Nat.succ_lt_succ hi)
        rwa [show a + (i + 1) = a + 1 + i by omega] at hx)
      (by rwa [show a + 1 + j = a + (j + 1) by omega])
    have hmap : (List.range (j + 1)).map
          (fun i : Nat => d * ((a + i + 1 : Nat) : ℚ))
        = d * ((a : ℚ) + 1) ::
          (List.range j).map
            (fun i : Nat => d * ((a + 1 + i + 1 : Nat) : ℚ)) := by
      rw [List.range_succ_eq_map, List.map_cons, List.map_map]
      congr 1
      · push_cast
        ring
      · refine List.map_congr_left fun i _ => ?_
        simp only [Function.comp_apply, Nat.succ_eq_add_one]
        push_cast
        ring
    cases hre : responses a with
    | netError =>
      simp only [listFetchLoop, hre]
      rw [hrec, hmap]
    | response st u2 n2 =>
      have hst : st ≠ 200 := by
        rw [failingFetch, hre] at h0
        simpa using h0
      simp only [listFetchLoop, hre, if_neg hst]
      rw [hrec, hmap]

/-- C3 (amended): the listing-page fetch retries exactly when an attempt
fails in the code's sense — a network error or an HTTP status other than
exactly 200 (not: other than 2xx) — making at most `maxRetries` GET
attempts, sleeping `requestDelay * attemptNumber` after each failed
attempt; a status-200 response is accepted without further retries; if all
attempts fail the result is an empty item list and no next-page URL. -/
theorem c3_retry_until_200 (responses : Nat → FetchResult) (d : ℚ) (k : Nat) :
    (extractCarUrlsAndNextPage responses k d).2.2 ≤ k ∧
    ((∀ i, i < k → failingFetch responses i = true) →
      extractCarUrlsAndNextPage responses k d =
        (([], none),
          (List.range k).map (fun i : Nat => d * ((i + 1 : Nat) : ℚ)), k)) ∧
    (∀ (j : Nat) (urls : List String) (next : Option String), j < k →
      (∀ i, i < j → failingFetch responses i = true) →
      responses j = .response 200 urls next →
      extractCarUrlsAndNextPage responses k d =
        ((urls, next),
          (List.range j).map (fun i : Nat => d * ((i + 1 : Nat) : ℚ)),
          j + 1)) := by
  have hfun : ∀ m : Nat, (List.range m).map
        (fun i : Nat => d * ((0 + i + 1 : Nat) : ℚ))
      = (List.range m).map (fun i : Nat => d * ((i + 1 : Nat) : ℚ)) := by
    intro m
    refine List.map_congr_left fun i _ => ?_
    norm_num
  refine ⟨listFetchLoop_attempts_le responses d k 0, fun h => ?_,
    fun j urls next hj hf h2 => ?_⟩
  · have hx := listFetchLoop_fail_all responses d k 0
      (fun i hi => by simpa using h i hi)
    rw [extractCarUrlsAndNextPage, hx, hfun]
  · have hx := listFetchLoop_first_success responses d j k 0 urls next hj
      (fun i hi => by simpa using hf i hi) (by simpa using h2)
    rw [extractCarUrlsAndNextPage, hx, hfun]

/-- C3 counterexample: a response with status 204 — a 2xx success — carrying
one item URL is not accepted: the code's `response.status != 200` test
treats it as a failure, sleeps, and (with one allowed attempt) returns the
empty all-failed result instead of the item list. -/
theorem c3_counterexample :
    extractCarUrlsAndNextPage (fun _ => .response 204 ["u1"] none) 1 1 =
      (([], none), [1], 1) := by
  norm_num [extractCarUrlsAndNextPage, listFetchLoop]

/-- C3 witness: first attempt hits a network error, second gets a 200
response; the fetch returns its URLs after one backoff sleep and two
attempts. -/
theorem c3_retry_until_200_witness :
    (extractCarUrlsAndNextPage respOneRetry 3 1).2.2 ≤ 3 ∧
    extractCarUrlsAndNextPage respOneRetry 3 1 =
      ((["c1"], none),
        (List.range 1).map (fun i : Nat => 1 * ((i + 1 : Nat) : ℚ)),
        1 + 1) :=
  ⟨(c3_retry_until_200 respOneRetry 1 3).1,
   (c3_retry_until_200 respOneRetry 1 3).2.2 1 ["c1"] none (by decide)
     (fun i hi => by interval_cases i; decide) (by decide)⟩

/-- Replacing one list element changes a `countP` by the change at that
position. -/
theorem countP_set_balance {α : Type} (p : α → Bool) :
    ∀ (l : List α) (i : Nat) (x : α) (h : i < l.length),
      (l.set i x).countP p + (if p l[i] then 1 else 0)
        = l.countP p + (if p x then 1 else 0) := by
  intro l
  induction l with
  | nil => intro i x h; exact absurd h (by simp)
  | cons hd tl ih =>
    intro i x h
    cases i with
    | zero =>
      simp only [List.set_cons_zero, List.countP_cons, List.getElem_cons_zero]
      omega
    | succ i =>
      have hi : i < tl.length := by simpa using h
      have := ih i x hi
      simp only [List.set_cons_succ, List.countP_cons,
        List.getElem_cons_succ]
      omega

/-- Generic bound after one `set`: the permit count stays at most `n` when
it was strictly below `n`, or when the replaced phase held a permit, or
when the new phase holds none. -/
theorem countP_set_le {α : Type} (p : α → Bool) (l : List α) (i : Nat)
    (x : α) (n : Nat) (h : i < l.length)
    (hcase : l.countP p < n ∨ (p l[i] = true ∧ l.countP p ≤ n) ∨
      (p x = false ∧ l.countP p ≤ n)) :
    (l.set i x).countP p ≤ n := by
  have hb := countP_set_balance p l i x h
  have h1 : (if p x then 1 else 0) ≤ 1 := by split <;> omega
  rcases hcase with hc | ⟨hold, hc⟩ | ⟨hnew, hc⟩
  · omega
  · rw [hold] at hb
    simp only [if_true] at hb
    omega
  · rw [hnew] at hb
    simp only [Bool.false_eq_true, if_false] at hb
    omega

/-- One scheduler step never raises the number of held permits above `n`:
the semaphore admits a pending task only while fewer than `n` permits are
held, and every other transition keeps or releases its permit. -/
theorem inFlight_stepTask_le (n : Nat) (specs : List TaskSpec)
    (st : SchedState) (i : Nat) (h : inFlight st ≤ n) :
    inFlight (stepTask n specs st i) ≤ n := by
  cases hsp : specs[i]? with
  | none => simpa [stepTask, hsp] using h
  | some sp =>
    cases hph : st.phases[i]? with
    | none => simpa [stepTask, hsp, hph] using h
    | some ph =>
      obtain ⟨hlen, hget⟩ := List.getElem?_eq_some_iff.mp hph
      simp only [stepTask, hsp, hph]
      cases ph with
      | pending =>
        by_cases hguard : inFlight st < n
        · simp only [hguard, if_true]
          split
          · exact countP_set_le holdsPermit st.phases i _ n hlen
              (Or.inl hguard)
          · cases hbeh : sp.beh with
            | ok susp d =>
              cases susp
              · exact countP_set_le holdsPermit st.phases i _ n hlen
                  (Or.inl hguard)
              · exact countP_set_le holdsPermit st.phases i _ n hlen
                  (Or.inl hguard)
            | fail susp =>
              cases susp
              · exact countP_set_le holdsPermit st.phases i _ n hlen
                  (Or.inl hguard)
              · exact countP_set_le holdsPermit st.phases i _ n hlen
                  (Or.inl hguard)
            | raise susp =>
              cases susp
              · exact countP_set_le holdsPermit st.phases i _ n hlen
                  (Or.inl hguard)
              · exact countP_set_le holdsPermit st.phases i _ n hlen
                  (Or.inl hguard)
        · simpa [hguard] using h
      | extracting =>
        have hold : holdsPermit st.phases[i] = true := by rw [hget]; rfl
        cases sp.beh with
        | ok susp d =>
          exact countP_set_le holdsPermit st.phases i _ n hlen
            (Or.inr (Or.inl ⟨hold, h⟩))
        | fail susp =>
          exact countP_set_le holdsPermit st.phases i _ n hlen
            (Or.inr (Or.inl ⟨hold, h⟩))
        | raise susp =>
          exact countP_set_le holdsPermit st.phases i _ n hlen
            (Or.inr (Or.inl ⟨hold, h⟩))
      | saving r =>
        have hold : holdsPermit st.phases[i] = true := by rw [hget]; rfl
        exact countP_set_le holdsPermit st.phases i _ n hlen
          (Or.inr (Or.inl ⟨hold, h⟩))
      | done res => simpa using h

/-- C6: with concurrency limit `n`, under every schedule of every batch, at
most `n` detail-page units of work are in flight at any instant — the
semaphore wrapped around `_process_car_page_with_semaphore` admits a new
task only while fewer than `n` permits are held. -/
theorem c6_bounded_concurrency (n : Nat) (specs : List TaskSpec)
    (processed : List String) (store : List Record) (sched : List Nat) :
    inFlight (runSched n specs (initState specs processed store) sched)
      ≤ n := by
  have hinit : inFlight (initState specs processed store) = 0 := by
    simp only [inFlight, initState]
    induction specs with
    | nil => rfl
    | cons hd tl ih => simp [List.countP_cons, holdsPermit, ih]
  have hrun : ∀ (sched : List Nat) (st : SchedState), inFlight st ≤ n →
      inFlight (runSched n specs st sched) ≤ n := by
    intro sched
    induction sched with
    | nil => intro st h; exact h
    | cons hd tl ih =>
      intro st h
      exact ih (stepTask n specs st hd) (inFlight_stepTask_le n specs st hd h)
  exact hrun sched (initState specs processed store) (by omega)

/-- The database insert keeps `url` unique: inserting into a store whose
rows have pairwise distinct URLs preserves that property, since the row is
added only when its `url` is absent. -/
theorem saveCar_nodup (store : List Record) (r : Record)
    (h : (store.map Record.url).Nodup) :
    (((saveCar store r).1).map Record.url).Nodup := by
  unfold saveCar
  split
  · exact h
  · rename_i hany
    have hnotmem : r.url ∉ store.map Record.url := by
      intro hmem
      obtain ⟨s, hs, he⟩ := List.mem_map.mp hmem
      exact hany (List.any_eq_true.mpr ⟨s, hs, by simp [he]⟩)
    simp only [List.map_append, List.map_cons, List.map_nil]
    exact List.Nodup.append h (List.nodup_singleton _)
      (by simpa [List.disjoint_singleton] using hnotmem)

/-- One scheduler step preserves URL uniqueness of the store: the only
store mutation is the database insert. -/
theorem stepTask_store_nodup (n : Nat) (specs : List TaskSpec)
    (st : SchedState) (i : Nat)
    (h : (st.store.map Record.url).Nodup) :
    (((stepTask n specs st i).store).map Record.url).Nodup := by
  cases hsp : specs[i]? with
  | none => simpa [stepTask, hsp] using h
  | some sp =>
    cases hph : st.phases[i]? with
    | none => simpa [stepTask, hsp, hph] using h
    | some ph =>
      simp only [stepTask, hsp, hph]
      cases ph with
      | pending =>
        by_cases hguard : inFlight st < n
        · simp only [hguard, if_true]
          split
          · exact h
          · cases sp.beh with
            | ok susp d => cases susp <;> exact h
            | fail susp => cases susp <;> exact h
            | raise susp => cases susp <;> exact h
        · simp only [hguard, if_false]
          exact h
      | extracting =>
        cases sp.beh with
        | ok susp d => exact h
        | fail susp => exact h
        | raise susp => exact h
      | saving r => exact saveCar_nodup st.store r h
      | done res => exact h

/-- C2 (amended): the membership check on `processed_urls` and the claim of
a URL are not one atomic operation — a URL is added to the set only after
its extraction completes, so two overlapping attempts for the same URL can
both pass the check and both reach persistence (exhibited by the
counterexample).  What does hold: (a) under every schedule the store keeps
at most one row per URL — the storage layer's `url` uniqueness, not the
in-memory check, is the effective guarantee — and (b) an attempt whose
check runs after the URL has been claimed is skipped and persists
nothing. -/
theorem c2_dedup_claim :
    (∀ (n : Nat) (specs : List TaskSpec) (st : SchedState)
      (sched : List Nat), (st.store.map Record.url).Nodup →
      ((runSched n specs st sched).store.map Record.url).Nodup) ∧
    (∀ (processed : List String) (store : List Record) (url : String)
      (beh : ExtBehavior), url ∈ processed →
      processCarPage processed store url beh
        = ⟨processed, store, .ret false, []⟩) := by
  constructor
  · intro n specs st sched
    induction sched generalizing st with
    | nil => intro h; exact h
    | cons hd tl ih =>
      intro h
      exact ih (stepTask n specs st hd) (stepTask_store_nodup n specs st hd h)
  · intro processed store url beh h
    simp [processCarPage, h]

/-- C2 counterexample: two concurrent tasks for the same URL, the first
suspending inside its extraction.  Schedule: task 0 is admitted, passes the
check and suspends mid-extraction; task 1 is admitted, passes the same
check (the URL is still unclaimed), completes extraction, marks the URL and
saves successfully (`.ret true`); task 0 then resumes and proceeds to its
own save.  Both tasks passed the deduplication check, and the later-checked
task is the one that persisted — the check did not succeed "exactly once",
and the overlapping attempt was neither skipped nor kept from
persisting. -/
theorem c2_counterexample :
    cexSpecs.map TaskSpec.url = ["u", "u"] ∧
    (runSched 2 cexSpecs (initState cexSpecs [] []) [0, 1, 1, 0]).phases
      = [Phase.saving (mkRecord "u" sampleData),
         Phase.done (.ret true)] :=
  ⟨rfl, rfl⟩

/-- C2 witness: the store after the counterexample schedule (completed by
one more step) still has pairwise-distinct URLs, and a task checking an
already-claimed URL is skipped. -/
theorem c2_dedup_claim_witness :
    ((runSched 2 cexSpecs (initState cexSpecs [] [])
        [0, 1, 1, 0, 0]).store.map Record.url).Nodup ∧
    processCarPage ["u"] [] "u" (.ok false sampleData)
      = ⟨["u"], [], .ret false, []⟩ :=
  ⟨c2_dedup_claim.1 2 cexSpecs (initState cexSpecs [] []) [0, 1, 1, 0, 0]
      (by simp [initState]),
   c2_dedup_claim.2 ["u"] [] "u" (.ok false sampleData) (by simp)⟩

end AutoRia
